import Mathlib

/-!
# ADS1115 register codec (`i2c_ps/ads1115.c`, `i2c_ps/ads1115.h`)

Shallow embedding of the ADS1115 driver of the I2C example.

* `u8` / `u16` values are natural numbers; an assignment to a `u16` object is
  followed by `% 65536`, a store into a `u8` object by `% 256`.
* Indexing one of the two constant tables is a bounds-checked lookup: an index
  outside the table (undefined behaviour in C) makes the computation `none`.
* The vendor I2C controller driver (`XIicPs_MasterSendPolled`,
  `XIicPs_MasterRecvPolled`, `XIicPs_BusIsBusy`) is not part of the repository.
  It is an oracle carried by the driver instance: for the k-th transfer it names
  the status returned, the bytes the controller stores into the receive buffer
  and how many times the bus answers "busy" afterwards.
* The two floating-point expressions are evaluated over exact rationals.
-/

namespace I2cPs

/-! ## Constants of `ads1115.h` -/

def ADS1115_ADDRESS : Nat := 0x49
def ADS1115_POINTER_CONVERSION : Nat := 0x0
def ADS1115_POINTER_CONFIG : Nat := 0x1
def ADS1115_CONFIG_OS_SINGLE : Nat := 0x8000
def ADS1115_CONFIG_MUX_OFFSET : Nat := 12
def ADS1115_CONFIG_MODE_CONTINUOUS : Nat := 0x0
def ADS1115_CONFIG_MODE_SINGLE : Nat := 0x100
def ADS1115_CONFIG_COMP_QUE_DISABLE : Nat := 0x3

/-- Status code `XST_SUCCESS` of the vendor headers. -/
def XST_SUCCESS : Int := 0

/-! ## Tables of `ads1115.c` -/

/-- Table `u16 ADS1115_ConfigGain[6]`. -/
def ADS1115_ConfigGain : List Nat := [0x0, 0x200, 0x400, 0x600, 0x800, 0xA00]

/-- Table `u8 ADS1115_ConfigDr[8]`. -/
def ADS1115_ConfigDr : List Nat := [0x0, 0x20, 0x40, 0x60, 0x80, 0xA0, 0xC0, 0xE0]

/-- Conversion to `u8`. -/
def u8 (n : Nat) : Nat := n % 256

/-- Conversion to `u16`. -/
def u16 (n : Nat) : Nat := n % 65536

/-! ## Bus transport -/

/-- One transfer requested from the controller driver. -/
inductive BusOp where
  | send (addr : Nat) (bytes : List Nat)
  | recv (addr : Nat) (count : Nat)
  deriving DecidableEq

/-- Lines written to the console. -/
inductive Msg where
  | sendFailed
  | recvFailed
  | configLine (channel config : Nat)
  | readLine (raw : Nat) (voltage : ℚ)
  deriving DecidableEq

/-- What the controller does with one transfer: the status it returns, the bytes
it stores into the receive buffer (receive only), and the number of
`XIicPs_BusIsBusy` polls that answer "busy" before the bus is idle. -/
structure Xfer where
  status : Int
  rx : List Nat
  busy : Nat

/-- Driver instance: the controller oracle, the transfers issued so far, the
number of busy polls made so far and the console output so far. -/
structure XIicPs where
  oracle : Nat → Xfer
  ops : List BusOp
  polls : Nat
  console : List Msg

/-- Console output (`xil_printf` / `printf`). -/
def xil_printf (I : XIicPs) (m : Msg) : XIicPs :=
  { I with console := I.console ++ [m] }

/-- Driver call `XIicPs_MasterSendPolled(InstancePtr, MsgPtr, ByteCount, SlaveAddr)`:
the first `ByteCount` bytes of the buffer are handed to the controller. -/
def XIicPs_MasterSendPolled (I : XIicPs) (buf : List Nat) (count addr : Nat) : XIicPs × Int :=
  ({ I with ops := I.ops ++ [BusOp.send addr (buf.take count)] },
   (I.oracle I.ops.length).status)

/-- Driver call `XIicPs_MasterRecvPolled(InstancePtr, MsgPtr, ByteCount, SlaveAddr)`:
the controller stores at most `ByteCount` bytes at the start of the buffer and
leaves the rest of the buffer as it was. -/
def XIicPs_MasterRecvPolled (I : XIicPs) (buf : List Nat) (count addr : Nat) :
    XIicPs × List Nat × Int :=
  let x := I.oracle I.ops.length
  let got := ((x.rx.take count).take buf.length).map u8
  ({ I with ops := I.ops ++ [BusOp.recv addr count] },
   got ++ buf.drop got.length,
   x.status)

/-- Loop `while (XIicPs_BusIsBusy(InstancePtr)) { }` when the bus answers
"busy" `n` more times. -/
def waitIdle (I : XIicPs) : Nat → XIicPs
  | 0 => { I with polls := I.polls + 1 }
  | n + 1 => waitIdle { I with polls := I.polls + 1 } n

/-- Function `I2CByteWrite`: sends a single byte after the device address. -/
def I2CByteWrite (I : XIicPs) (device_addr data : Nat) : XIicPs :=
  let tx_buff := [u8 data, 0]
  let x := I.oracle I.ops.length
  let r := XIicPs_MasterSendPolled I tx_buff 1 device_addr
  let I1 := if r.2 ≠ XST_SUCCESS then xil_printf r.1 Msg.sendFailed else r.1
  waitIdle I1 x.busy

/-- Function `I2CByteWrites`: sends a register byte and two data bytes. -/
def I2CByteWrites (I : XIicPs) (device_addr reg_addr data_msb data_lsb : Nat) : XIicPs :=
  let tx_buff := [u8 reg_addr, u8 data_lsb, u8 data_msb]
  let x := I.oracle I.ops.length
  let r := XIicPs_MasterSendPolled I tx_buff 3 device_addr
  let I1 := if r.2 ≠ XST_SUCCESS then xil_printf r.1 Msg.sendFailed else r.1
  waitIdle I1 x.busy

/-- Function `I2CReadBytes`: receives two bytes into a local zeroed buffer and
copies them to the buffer of the caller, which is returned. -/
def I2CReadBytes (I : XIicPs) (device_addr : Nat) (rx_buff_ptr : List Nat) : XIicPs × List Nat :=
  let rx_buff := [0x00, 0x00]
  let x := I.oracle I.ops.length
  let r := XIicPs_MasterRecvPolled I rx_buff 2 device_addr
  let I1 := if r.2.2 ≠ XST_SUCCESS then xil_printf r.1 Msg.recvFailed else r.1
  let I2 := waitIdle I1 x.busy
  let out := rx_buff_ptr.set 0 (r.2.1.getD 0 0)
  let out := out.set 1 (r.2.1.getD 1 0)
  (I2, out)

/-! ## Codec -/

/-- Lines 111-116 of `ADS1115_Config`: the config word. -/
def encode_config (channel gain data_rate : Nat) : Option Nat := do
  let config := ADS1115_CONFIG_OS_SINGLE
  let config := u16 (config ||| ((channel &&& 0x07) <<< ADS1115_CONFIG_MUX_OFFSET))
  let g ← ADS1115_ConfigGain[gain]?
  let config := u16 (config ||| g)
  let config := u16 (config ||| ADS1115_CONFIG_MODE_CONTINUOUS)
  let d ← ADS1115_ConfigDr[data_rate]?
  let config := u16 (config ||| d)
  let config := u16 (config ||| ADS1115_CONFIG_COMP_QUE_DISABLE)
  pure config

/-- Conversion `(int)q` of a real value: truncation toward zero. -/
def truncInt (q : ℚ) : Int := if 0 ≤ q then ⌊q⌋ else ⌈q⌉

/-- Line 122 of `ADS1115_Config`: the argument of `usleep`,
`(int)((1.0/ADS1115_ConfigDr[data_rate]) + 100)`. It is `none` when the table
index is out of range and when the divisor is zero (the quotient is then not a
finite number and its conversion to `int` is undefined). For a non-zero divisor
the quotient lies in `(0, 1/32]`, so the sum lies strictly between 100 and 101
also after rounding to a double, and the truncation is the one of the exact
value. -/
def usleepArg (data_rate : Nat) : Option Int := do
  let d ← ADS1115_ConfigDr[data_rate]?
  if d = 0 then none else some (truncInt ((1 : ℚ) / (d : ℚ) + 100))

/-- Result of `ADS1115_Config`: the driver instance afterwards, the config word
and the delay handed to `usleep` (`none`: undefined). -/
structure ConfigOutcome where
  bus : XIicPs
  config : Nat
  delay : Option Int

/-- Function `ADS1115_Config`. -/
def ADS1115_Config (I : XIicPs) (channel gain data_rate : Nat) : Option ConfigOutcome := do
  let config ← encode_config channel gain data_rate
  let data0 := u8 ((config >>> 8) &&& 0xFF)
  let data1 := u8 (config &&& 0xFF)
  let I1 := I2CByteWrites I ADS1115_ADDRESS ADS1115_POINTER_CONFIG data1 data0
  let I2 := xil_printf I1 (Msg.configLine channel config)
  pure { bus := I2, config := config, delay := usleepArg data_rate }

/-- Line 142 of `ADS1115_Read`: `u16 raw_result = (data[0]*256 + data[1])`. -/
def raw_of (data : List Nat) : Nat := u16 (data.getD 0 0 * 256 + data.getD 1 0)

/-- Line 143 of `ADS1115_Read`: `raw_result * 4.096 / 32768`, over the rationals. -/
def voltage_of (raw_result : Nat) : ℚ := (raw_result : ℚ) * 4.096 / 32768

/-- Result of `ADS1115_Read`: the driver instance afterwards, the receive
buffer, the raw result and the voltage. -/
structure ReadOutcome where
  bus : XIicPs
  data : List Nat
  raw_result : Nat
  voltage : ℚ

/-- Function `ADS1115_Read`. -/
def ADS1115_Read (I : XIicPs) : ReadOutcome :=
  let data := [0x0, 0x0]
  let I1 := I2CByteWrite I ADS1115_ADDRESS ADS1115_POINTER_CONVERSION
  let r := I2CReadBytes I1 ADS1115_ADDRESS data
  let raw_result := raw_of r.2
  let voltage := voltage_of raw_result
  let I3 := xil_printf r.1 (Msg.readLine raw_result voltage)
  { bus := I3, data := r.2, raw_result := raw_result, voltage := voltage }

/-- A controller on which every transfer succeeds, stores nothing and is idle at once. -/
def idleBus : XIicPs :=
  { oracle := fun _ => { status := 0, rx := [], busy := 0 }, ops := [], polls := 0, console := [] }

/-- A controller whose k-th transfer has status `st k`, stores `rx k` and answers
"busy" `k` times. -/
def scriptBus (st : Nat → Int) (rx : Nat → List Nat) : XIicPs :=
  { oracle := fun k => { status := st k, rx := rx k, busy := k }, ops := [], polls := 0, console := [] }

/-! ## Config word: helper lemmas -/

/-- The config word only depends on the low three bits of the channel. -/
theorem encode_config_low_bits (channel gain data_rate : Nat) :
    encode_config channel gain data_rate = encode_config (channel &&& 0x7) gain data_rate := by
  have h : (channel &&& 0x7) &&& 0x07 = channel &&& 0x07 := by
    rw [Nat.land_assoc]; rfl
  unfold encode_config
  rw [h]

theorem channel_low_bits_lt (channel : Nat) : channel &&& 0x7 < 8 := by
  have h : channel &&& 0x7 = channel % 8 := Nat.and_pow_two_sub_one_eq_mod channel 3
  omega

set_option synthInstance.maxSize 4096 in
set_option synthInstance.maxHeartbeats 400000 in
/-- The layout of the config word, for every three-bit channel and every pair
of table indices. -/
theorem encode_config_cases : ∀ c < 8, ∀ g < 6, ∀ d < 8,
    encode_config c g d = some (0x8000 ||| (c <<< 12) ||| (g <<< 9) ||| (d <<< 5) ||| 0x3)
    ∧ (encode_config c g d).getD 0 < 65536
    ∧ ((encode_config c g d).getD 0 >>> 15) &&& 1 = 1
    ∧ ((encode_config c g d).getD 0 >>> 12) &&& 7 = c
    ∧ ((encode_config c g d).getD 0 >>> 9) &&& 7 = g
    ∧ ((encode_config c g d).getD 0 >>> 8) &&& 1 = 0
    ∧ ((encode_config c g d).getD 0 >>> 5) &&& 7 = d
    ∧ (encode_config c g d).getD 0 &&& 0x1F = 0x3 := by
  decide

set_option synthInstance.maxSize 4096 in
set_option synthInstance.maxHeartbeats 400000 in
/-- The fragments of the config word, for every three-bit channel and every pair
of table indices. -/
theorem fragments_cases : ∀ c < 8, ∀ g < 6, ∀ d < 8,
    ADS1115_ConfigGain[g]? = some (ADS1115_ConfigGain.getD g 0)
    ∧ ADS1115_ConfigDr[d]? = some (ADS1115_ConfigDr.getD d 0)
    ∧ List.Pairwise (fun a b => a &&& b = 0)
        [ADS1115_CONFIG_OS_SINGLE, c <<< ADS1115_CONFIG_MUX_OFFSET, ADS1115_ConfigGain.getD g 0,
         ADS1115_CONFIG_MODE_CONTINUOUS, ADS1115_ConfigDr.getD d 0, ADS1115_CONFIG_COMP_QUE_DISABLE]
    ∧ encode_config c g d
        = some (ADS1115_CONFIG_OS_SINGLE + c <<< ADS1115_CONFIG_MUX_OFFSET
                + ADS1115_ConfigGain.getD g 0 + ADS1115_CONFIG_MODE_CONTINUOUS
                + ADS1115_ConfigDr.getD d 0 + ADS1115_CONFIG_COMP_QUE_DISABLE)
    ∧ ((encode_config c g d).getD 0).testBit 8 = false
    ∧ ((encode_config c g d).getD 0).testBit 4 = false
    ∧ ((encode_config c g d).getD 0).testBit 3 = false
    ∧ ((encode_config c g d).getD 0).testBit 2 = false := by
  decide

theorem ADS1115_Config_word (I : XIicPs) (channel gain data_rate : Nat) :
    (ADS1115_Config I channel gain data_rate).map ConfigOutcome.config
      = encode_config channel gain data_rate := by
  unfold ADS1115_Config
  cases encode_config channel gain data_rate <;> rfl

/-! ## Bus transport: helper lemmas -/

theorem waitIdle_ops (I : XIicPs) (n : Nat) : (waitIdle I n).ops = I.ops := by
  induction n generalizing I with
  | zero => rfl
  | succ n ih => rw [waitIdle, ih]

theorem waitIdle_oracle (I : XIicPs) (n : Nat) : (waitIdle I n).oracle = I.oracle := by
  induction n generalizing I with
  | zero => rfl
  | succ n ih => rw [waitIdle, ih]

theorem waitIdle_console (I : XIicPs) (n : Nat) : (waitIdle I n).console = I.console := by
  induction n generalizing I with
  | zero => rfl
  | succ n ih => rw [waitIdle, ih]

theorem I2CByteWrite_ops (I : XIicPs) (a d : Nat) :
    (I2CByteWrite I a d).ops = I.ops ++ [BusOp.send a [u8 d]] := by
  unfold I2CByteWrite
  simp only [waitIdle_ops, XIicPs_MasterSendPolled, xil_printf]
  split <;> rfl

theorem I2CByteWrite_oracle (I : XIicPs) (a d : Nat) : (I2CByteWrite I a d).oracle = I.oracle := by
  unfold I2CByteWrite
  simp only [waitIdle_oracle, XIicPs_MasterSendPolled, xil_printf]
  split <;> rfl

theorem I2CByteWrite_console (I : XIicPs) (a d : Nat) :
    (I2CByteWrite I a d).console
      = I.console ++ (if (I.oracle I.ops.length).status ≠ XST_SUCCESS then [Msg.sendFailed] else []) := by
  unfold I2CByteWrite
  simp only [waitIdle_console, XIicPs_MasterSendPolled, xil_printf]
  split <;> simp

theorem I2CByteWrites_ops (I : XIicPs) (a r m l : Nat) :
    (I2CByteWrites I a r m l).ops = I.ops ++ [BusOp.send a [u8 r, u8 l, u8 m]] := by
  unfold I2CByteWrites
  simp only [waitIdle_ops, XIicPs_MasterSendPolled, xil_printf]
  split <;> rfl

theorem I2CReadBytes_ops (I : XIicPs) (a : Nat) (buf : List Nat) :
    (I2CReadBytes I a buf).1.ops = I.ops ++ [BusOp.recv a 2] := by
  unfold I2CReadBytes
  simp only [waitIdle_ops, XIicPs_MasterRecvPolled, xil_printf]
  split <;> rfl

theorem I2CReadBytes_console (I : XIicPs) (a : Nat) (buf : List Nat) :
    (I2CReadBytes I a buf).1.console
      = I.console ++ (if (I.oracle I.ops.length).status ≠ XST_SUCCESS then [Msg.recvFailed] else []) := by
  unfold I2CReadBytes
  simp only [waitIdle_console, XIicPs_MasterRecvPolled, xil_printf]
  split <;> simp

/-- The two bytes `I2CReadBytes` leaves in a two-byte caller buffer: what the
controller stored, and zero where it stored nothing. -/
theorem I2CReadBytes_data (I : XIicPs) (a b0 b1 : Nat) :
    (I2CReadBytes I a [b0, b1]).2
      = [u8 ((I.oracle I.ops.length).rx.getD 0 0), u8 ((I.oracle I.ops.length).rx.getD 1 0)] := by
  unfold I2CReadBytes XIicPs_MasterRecvPolled
  dsimp only
  generalize (I.oracle I.ops.length).rx = rx
  rcases rx with _ | ⟨x, _ | ⟨y, t⟩⟩ <;> simp [u8]

theorem ADS1115_Read_data (I : XIicPs) :
    (ADS1115_Read I).data
      = [u8 ((I.oracle (I.ops.length + 1)).rx.getD 0 0),
         u8 ((I.oracle (I.ops.length + 1)).rx.getD 1 0)] := by
  unfold ADS1115_Read
  simp only [I2CReadBytes_data, I2CByteWrite_oracle, I2CByteWrite_ops, List.length_append,
    List.length_singleton]

theorem raw_of_bytes (high low : Nat) (hh : high < 256) (hl : low < 256) :
    raw_of [high, low] = high * 256 + low := by
  simp only [raw_of, u16, List.getD_cons_zero, List.getD_cons_succ]
  omega

theorem u8_lt (n : Nat) : u8 n < 256 := by
  unfold u8
  omega

theorem u8_of_lt (n : Nat) (h : n < 256) : u8 n = n := by
  unfold u8
  omega

/-! ## Config word -/

/-- C1: for every channel, every gain index in 0..5 and every data-rate index in
0..7 the config word of `ADS1115_Config` is
`0x8000 | ((channel & 0x7) << 12) | (gain << 9) | (data_rate << 5) | 0x3`,
whatever the driver instance is: bit 15 is 1, bits 14-12 are the low three bits
of the channel, bits 11-9 the gain index, bit 8 is 0, bits 7-5 the data-rate
index and bits 4-0 are `0b00011`. -/
theorem encode_config_layout (channel gain data_rate : Nat)
    (hg : gain ≤ 5) (hd : data_rate ≤ 7) :
    encode_config channel gain data_rate
      = some (0x8000 ||| ((channel &&& 0x7) <<< 12) ||| (gain <<< 9) ||| (data_rate <<< 5) ||| 0x3)
    ∧ (∀ I : XIicPs, (ADS1115_Config I channel gain data_rate).map ConfigOutcome.config
        = some (0x8000 ||| ((channel &&& 0x7) <<< 12) ||| (gain <<< 9) ||| (data_rate <<< 5)
                  ||| 0x3))
    ∧ ∃ w, encode_config channel gain data_rate = some w
        ∧ w < 65536
        ∧ (w >>> 15) &&& 1 = 1
        ∧ (w >>> 12) &&& 7 = channel &&& 0x7
        ∧ (w >>> 9) &&& 7 = gain
        ∧ (w >>> 8) &&& 1 = 0
        ∧ (w >>> 5) &&& 7 = data_rate
        ∧ w &&& 0x1F = 0x3 := by
  have h := encode_config_cases (channel &&& 0x7) (channel_low_bits_lt channel)
    gain (by omega) data_rate (by omega)
  rw [← encode_config_low_bits] at h
  obtain ⟨h0, h1⟩ := h
  refine ⟨h0, fun I => ?_, _, h0, ?_⟩
  · rw [ADS1115_Config_word, h0]
  · rw [h0] at h1
    exact h1

/-- Witness of C1 at the arguments `(1, 1, 4)`. -/
theorem encode_config_layout_witness :
    (1 ≤ 5 ∧ 4 ≤ 7)
    ∧ encode_config 1 1 4 = some (0x8000 ||| ((1 &&& 0x7) <<< 12) ||| (1 <<< 9) ||| (4 <<< 5) ||| 0x3) :=
  ⟨by decide, (encode_config_layout 1 1 4 (by decide) (by decide)).1⟩

/-- C2, refuted as stated: the config word for the arguments `(1, 1, 4)` is not
`0x9A83`, and neither is `0x8000 | (1<<12) | 0x200 | 0x0 | 0x80 | 0x3`. -/
theorem encode_config_1_1_4_ne_9A83 :
    encode_config 1 1 4 ≠ some 0x9A83
    ∧ (0x8000 ||| (1 <<< 12) ||| 0x200 ||| 0x0 ||| 0x80 ||| 0x3) ≠ 0x9A83
    ∧ (ADS1115_Config idleBus 1 1 4).map ConfigOutcome.config ≠ some 0x9A83 := by
  decide

/-- C2, amended: the config word `ADS1115_Config` builds for the arguments
`(1, 1, 4)` is `0x8000 | (1<<12) | 0x200 | 0x0 | 0x80 | 0x3`, which is `0x9283`. -/
theorem encode_config_1_1_4 :
    encode_config 1 1 4 = some (0x8000 ||| (1 <<< 12) ||| 0x200 ||| 0x0 ||| 0x80 ||| 0x3)
    ∧ (0x8000 ||| (1 <<< 12) ||| 0x200 ||| 0x0 ||| 0x80 ||| 0x3) = 0x9283
    ∧ ∀ I : XIicPs, (ADS1115_Config I 1 1 4).map ConfigOutcome.config = some 0x9283 := by
  refine ⟨by decide, by decide, fun I => ?_⟩
  rw [ADS1115_Config_word]
  decide

/-- C4: for every channel, gain index in 0..5 and data-rate index in 0..7 the six
fragments OR-ed together by `ADS1115_Config` have pairwise bitwise AND zero, the
config word is their sum, bits 8, 4, 3 and 2 of the config word are zero, and
for channel 7 bits 14-12 are `0b111` while bits 11-9 are the gain index and
bit 15 is 1. -/
theorem config_fragments_disjoint (channel gain data_rate : Nat)
    (hg : gain ≤ 5) (hd : data_rate ≤ 7) :
    ∃ fg fd w, ADS1115_ConfigGain[gain]? = some fg
      ∧ ADS1115_ConfigDr[data_rate]? = some fd
      ∧ encode_config channel gain data_rate = some w
      ∧ List.Pairwise (fun a b => a &&& b = 0)
          [ADS1115_CONFIG_OS_SINGLE, (channel &&& 0x07) <<< ADS1115_CONFIG_MUX_OFFSET, fg,
           ADS1115_CONFIG_MODE_CONTINUOUS, fd, ADS1115_CONFIG_COMP_QUE_DISABLE]
      ∧ w = ADS1115_CONFIG_OS_SINGLE + (channel &&& 0x07) <<< ADS1115_CONFIG_MUX_OFFSET + fg
              + ADS1115_CONFIG_MODE_CONTINUOUS + fd + ADS1115_CONFIG_COMP_QUE_DISABLE
      ∧ w.testBit 8 = false ∧ w.testBit 4 = false ∧ w.testBit 3 = false ∧ w.testBit 2 = false
      ∧ ∃ w7, encode_config 7 gain data_rate = some w7
          ∧ (w7 >>> 12) &&& 7 = 0b111 ∧ (w7 >>> 9) &&& 7 = gain ∧ (w7 >>> 15) &&& 1 = 1 := by
  have h := fragments_cases (channel &&& 0x7) (channel_low_bits_lt channel)
    gain (by omega) data_rate (by omega)
  rw [← encode_config_low_bits] at h
  obtain ⟨h1, h2, h3, h4, h5⟩ := h
  have h7 := encode_config_cases 7 (by decide) gain (by omega) data_rate (by omega)
  obtain ⟨e7, k7⟩ := h7
  rw [e7] at k7
  rw [h4] at h5
  exact ⟨_, _, _, h1, h2, h4, h3, rfl, h5.1, h5.2.1, h5.2.2.1, h5.2.2.2,
    _, e7, k7.2.2.1, k7.2.2.2.1, k7.2.1⟩

/-- Witness of C4 at channel 7, gain index 5, data-rate index 7. -/
theorem config_fragments_disjoint_witness :
    (5 ≤ 5 ∧ 7 ≤ 7)
    ∧ ∃ w7, encode_config 7 5 7 = some w7
        ∧ (w7 >>> 12) &&& 7 = 0b111 ∧ (w7 >>> 9) &&& 7 = 5 ∧ (w7 >>> 15) &&& 1 = 1 :=
  ⟨by decide, by
    obtain ⟨_, _, _, _, _, _, _, _, _, _, _, _, h7⟩ :=
      config_fragments_disjoint 7 5 7 (by decide) (by decide)
    exact h7⟩

/-- C7: with bounds-checked table lookups, the encoding of `ADS1115_Config`
produces a config word whenever `gain ≤ 5` and `data_rate ≤ 7`, it fails exactly
when `gain > 5` or `data_rate > 7`, and whether it fails does not depend on the
channel; the gain table has 6 entries and the data-rate table 8, each defined
exactly on its index range. -/
theorem encode_config_total (channel gain data_rate : Nat) :
    (gain ≤ 5 ∧ data_rate ≤ 7 → ∃ w, encode_config channel gain data_rate = some w)
    ∧ (encode_config channel gain data_rate = none ↔ (5 < gain ∨ 7 < data_rate))
    ∧ (∀ I : XIicPs, ADS1115_Config I channel gain data_rate = none ↔ (5 < gain ∨ 7 < data_rate))
    ∧ (∀ channel2 : Nat, (encode_config channel gain data_rate).isSome
          = (encode_config channel2 gain data_rate).isSome)
    ∧ ADS1115_ConfigGain.length = 6 ∧ ADS1115_ConfigDr.length = 8
    ∧ (ADS1115_ConfigGain[gain]? = none ↔ 5 < gain)
    ∧ (ADS1115_ConfigDr[data_rate]? = none ↔ 7 < data_rate) := by
  have hG : ADS1115_ConfigGain[gain]? = none ↔ 5 < gain := by
    rw [List.getElem?_eq_none_iff]
    show 6 ≤ gain ↔ 5 < gain
    omega
  have hD : ADS1115_ConfigDr[data_rate]? = none ↔ 7 < data_rate := by
    rw [List.getElem?_eq_none_iff]
    show 8 ≤ data_rate ↔ 7 < data_rate
    omega
  have key : ∀ c : Nat, encode_config c gain data_rate = none ↔ (5 < gain ∨ 7 < data_rate) := by
    intro c
    unfold encode_config
    cases hg : ADS1115_ConfigGain[gain]? with
    | none => simpa using Or.inl (hG.mp hg)
    | some g =>
      cases hd : ADS1115_ConfigDr[data_rate]? with
      | none => simpa using Or.inr (hD.mp hd)
      | some d =>
        have h1 : ¬ 5 < gain := fun h => by rw [hG.mpr h] at hg; cases hg
        have h2 : ¬ 7 < data_rate := fun h => by rw [hD.mpr h] at hd; cases hd
        simp [h1, h2]
  refine ⟨?_, key channel, ?_, ?_, rfl, rfl, hG, hD⟩
  · rintro ⟨hg, hd⟩
    cases h : encode_config channel gain data_rate with
    | none => have := (key channel).mp h; omega
    | some w => exact ⟨w, rfl⟩
  · intro I
    rw [← key channel]
    unfold ADS1115_Config
    cases encode_config channel gain data_rate <;> simp
  · intro c2
    have a := key channel
    have b := key c2
    cases h1 : encode_config channel gain data_rate <;>
      cases h2 : encode_config c2 gain data_rate <;> simp_all

/-- Witness of C7 at channel 255, gain index 5, data-rate index 7 (a config word
is produced) -/
theorem encode_config_total_witness :
    (5 ≤ 5 ∧ 7 ≤ 7) ∧ ∃ w, encode_config 255 5 7 = some w :=
  ⟨by decide, (encode_config_total 255 5 7).1 (by decide)⟩

/-! ## Bytes on the bus -/

/-- C3, refuted as stated: for the arguments `(1, 1, 4)` the config word is
`0x9283` and the bytes handed to the transport are `0x01, 0x92, 0x83`, which is
not the pointer byte followed by `config & 0xFF` and `config >> 8`. -/
theorem config_bytes_not_lsb_first :
    encode_config 1 1 4 = some 0x9283
    ∧ (ADS1115_Config idleBus 1 1 4).map (fun o => o.bus.ops)
        = some [BusOp.send 0x49 [0x01, 0x92, 0x83]]
    ∧ (ADS1115_Config idleBus 1 1 4).map (fun o => o.bus.ops)
        ≠ some [BusOp.send 0x49 [0x01, 0x9283 &&& 0xFF, 0x9283 >>> 8]] := by
  decide

/-- C3, amended: for every channel, gain index in 0..5 and data-rate index in
0..7, `ADS1115_Config` issues exactly one transfer, a 3-byte send to device 0x49
of the pointer byte `0x01`, then the most-significant byte of the config word
(`config >> 8`), then its least-significant byte (`config & 0xFF`). -/
theorem config_bytes_msb_first (I : XIicPs) (channel gain data_rate : Nat)
    (hg : gain ≤ 5) (hd : data_rate ≤ 7) :
    ∃ o w, ADS1115_Config I channel gain data_rate = some o
      ∧ encode_config channel gain data_rate = some w
      ∧ o.config = w
      ∧ o.bus.ops = I.ops ++ [BusOp.send 0x49 [0x01, w >>> 8, w &&& 0xFF]] := by
  have h := encode_config_cases (channel &&& 0x7) (channel_low_bits_lt channel)
    gain (by omega) data_rate (by omega)
  rw [← encode_config_low_bits] at h
  obtain ⟨h0, h1⟩ := h
  rw [h0] at h1
  have hlt := h1.1
  simp only [Option.getD_some] at hlt
  generalize 0x8000 ||| ((channel &&& 0x7) <<< 12) ||| (gain <<< 9) ||| (data_rate <<< 5) ||| 0x3
    = w at h0 hlt
  have e1 : w &&& 0xFF = w % 256 := Nat.and_pow_two_sub_one_eq_mod w 8
  have e2 : (w >>> 8) &&& 0xFF = (w >>> 8) % 256 := Nat.and_pow_two_sub_one_eq_mod (w >>> 8) 8
  have e3 : w >>> 8 = w / 256 := Nat.shiftRight_eq_div_pow w 8
  have b1 : u8 (w &&& 0xFF) = w &&& 0xFF := u8_of_lt _ (by omega)
  have b0 : u8 ((w >>> 8) &&& 0xFF) = w >>> 8 := by
    rw [u8_of_lt _ (by omega)]
    omega
  refine ⟨{ bus := xil_printf (I2CByteWrites I ADS1115_ADDRESS ADS1115_POINTER_CONFIG
              (u8 (w &&& 0xFF)) (u8 ((w >>> 8) &&& 0xFF))) (Msg.configLine channel w),
            config := w, delay := usleepArg data_rate }, w, ?_, h0, rfl, ?_⟩
  · unfold ADS1115_Config
    rw [h0]
    rfl
  · have b2 : u8 (w >>> 8) = w >>> 8 := u8_of_lt _ (by omega)
    unfold xil_printf
    simp only [I2CByteWrites_ops, b0, b1, b2]
    rfl

/-- Witness of the amended C3 at the arguments `(3, 1, 4)` on a controller whose
transfers all fail. -/
theorem config_bytes_msb_first_witness :
    (1 ≤ 5 ∧ 4 ≤ 7)
    ∧ ∃ o w, ADS1115_Config (scriptBus (fun _ => 1) (fun _ => [])) 3 1 4 = some o
        ∧ encode_config 3 1 4 = some w
        ∧ o.config = w
        ∧ o.bus.ops = (scriptBus (fun _ => 1) (fun _ => [])).ops
            ++ [BusOp.send 0x49 [0x01, w >>> 8, w &&& 0xFF]] :=
  ⟨by decide, config_bytes_msb_first _ 3 1 4 (by decide) (by decide)⟩

/-! ## Conversion result -/

/-- C5: for every pair of received bytes `(high, low)` the raw value computed by
`ADS1115_Read` is `high * 256 + low`, an unsigned number in 0..65535 with no
wrap-around; it is at least 32768 whenever `high ≥ 0x80`, it is 0 for
`[0x00, 0x00]` and 32767 for `[0x7F, 0xFF]`. -/
theorem raw_result_unsigned (high low : Nat) (hh : high < 256) (hl : low < 256) :
    raw_of [high, low] = high * 256 + low
    ∧ raw_of [high, low] ≤ 65535
    ∧ (0x80 ≤ high → 32768 ≤ raw_of [high, low])
    ∧ raw_of [0x00, 0x00] = 0
    ∧ raw_of [0x7F, 0xFF] = 32767
    ∧ ∀ I : XIicPs, (I.oracle (I.ops.length + 1)).rx = [high, low] →
        (ADS1115_Read I).data = [high, low]
        ∧ (ADS1115_Read I).raw_result = high * 256 + low := by
  have e := raw_of_bytes high low hh hl
  refine ⟨e, by omega, fun h => by omega, by decide, by decide, fun I hrx => ?_⟩
  have hd : (ADS1115_Read I).data = [high, low] := by
    rw [ADS1115_Read_data, hrx]
    simp only [List.getD_cons_zero, List.getD_cons_succ, u8_of_lt _ hh, u8_of_lt _ hl]
  refine ⟨hd, ?_⟩
  have hr : (ADS1115_Read I).raw_result = raw_of (ADS1115_Read I).data := rfl
  rw [hr, hd, e]

/-- Witness of C5 at the bytes `[0x80, 0x01]`, received on a controller whose
transfers report a failure status. -/
theorem raw_result_unsigned_witness :
    (0x80 < 256 ∧ 0x01 < 256)
    ∧ raw_of [0x80, 0x01] = 0x80 * 256 + 0x01
    ∧ (ADS1115_Read (scriptBus (fun _ => 1) (fun _ => [0x80, 0x01]))).raw_result
        = 0x80 * 256 + 0x01 :=
  ⟨by decide, (raw_result_unsigned 0x80 0x01 (by decide) (by decide)).1,
    ((raw_result_unsigned 0x80 0x01 (by decide) (by decide)).2.2.2.2.2
      (scriptBus (fun _ => 1) (fun _ => [0x80, 0x01])) rfl).2⟩

/-- The voltage `ADS1115_Read` reports on a controller that stores the bytes
`[high, low]` at the receive. -/
theorem ADS1115_Read_voltage (I : XIicPs) (high low : Nat) (hh : high < 256) (hl : low < 256)
    (hrx : (I.oracle (I.ops.length + 1)).rx = [high, low]) :
    (ADS1115_Read I).raw_result = high * 256 + low
    ∧ (ADS1115_Read I).voltage = ((high * 256 + low : Nat) : ℚ) * 4.096 / 32768 := by
  have hd : (ADS1115_Read I).data = [high, low] := by
    rw [ADS1115_Read_data, hrx]
    simp only [List.getD_cons_zero, List.getD_cons_succ, u8_of_lt _ hh, u8_of_lt _ hl]
  have hr : (ADS1115_Read I).raw_result = raw_of (ADS1115_Read I).data := rfl
  have hraw : (ADS1115_Read I).raw_result = high * 256 + low := by
    rw [hr, hd, raw_of_bytes high low hh hl]
  have hv : (ADS1115_Read I).voltage = voltage_of (ADS1115_Read I).raw_result := rfl
  refine ⟨hraw, ?_⟩
  rw [hv, hraw]
  rfl

/-- The driver instance `ADS1115_Config` leaves behind has the same controller
and one transfer more. -/
theorem ADS1115_Config_bus (I : XIicPs) (channel gain data_rate : Nat) (o : ConfigOutcome)
    (h : ADS1115_Config I channel gain data_rate = some o) :
    o.bus.oracle = I.oracle ∧ o.bus.ops.length = I.ops.length + 1 := by
  unfold ADS1115_Config at h
  cases hw : encode_config channel gain data_rate with
  | none =>
    rw [hw] at h
    cases h
  | some w =>
    rw [hw] at h
    injection h with h
    subst h
    refine ⟨?_, ?_⟩
    · show (xil_printf (I2CByteWrites I _ _ _ _) _).oracle = _
      unfold xil_printf I2CByteWrites
      simp only [waitIdle_oracle, XIicPs_MasterSendPolled]
      split <;> rfl
    · show (xil_printf (I2CByteWrites I _ _ _ _) _).ops.length = _
      unfold xil_printf
      simp only [I2CByteWrites_ops, List.length_append, List.length_singleton]

/-- C6: over exact rational arithmetic, on every controller that stores the
bytes `[high, low]` at the receive, the voltage `ADS1115_Read` reports is
`raw * 4.096 / 32768 = raw / 8000` with `raw = high * 256 + low`, so for every
raw value in 0..65535; the full-scale constant is 4.096 whatever gain the
preceding `ADS1115_Config` was called with; the voltage is 0 for the bytes
`[0x00, 0x00]` and `32767/8000 = 4.095875` for the bytes `[0x7F, 0xFF]`. -/
theorem voltage_fixed_full_scale (high low : Nat) (hh : high < 256) (hl : low < 256) :
    (∀ I : XIicPs, (I.oracle (I.ops.length + 1)).rx = [high, low] →
        (ADS1115_Read I).raw_result = high * 256 + low
        ∧ (ADS1115_Read I).voltage = ((high * 256 + low : Nat) : ℚ) * 4.096 / 32768
        ∧ (ADS1115_Read I).voltage = ((high * 256 + low : Nat) : ℚ) / 8000)
    ∧ (∀ (I : XIicPs) (channel gain data_rate : Nat) (o : ConfigOutcome),
        ADS1115_Config I channel gain data_rate = some o →
        (I.oracle (I.ops.length + 2)).rx = [high, low] →
          (ADS1115_Read o.bus).voltage = ((high * 256 + low : Nat) : ℚ) * 4.096 / 32768)
    ∧ (∀ I : XIicPs, (I.oracle (I.ops.length + 1)).rx = [0x00, 0x00] →
        (ADS1115_Read I).raw_result = 0 ∧ (ADS1115_Read I).voltage = 0)
    ∧ (∀ I : XIicPs, (I.oracle (I.ops.length + 1)).rx = [0x7F, 0xFF] →
        (ADS1115_Read I).raw_result = 32767 ∧ (ADS1115_Read I).voltage = 32767 / 8000)
    ∧ (∀ raw : Nat, voltage_of raw = (raw : ℚ) * 4.096 / 32768
        ∧ voltage_of raw = (raw : ℚ) / 8000)
    ∧ (32767 / 8000 : ℚ) = 4.095875
    ∧ |(32767 / 8000 : ℚ) - 4.0959| < 0.0001 := by
  have scale : ∀ q : ℚ, q * 4.096 / 32768 = q / 8000 := by
    intro q
    norm_num
    ring
  refine ⟨fun I hrx => ?_, fun I channel gain data_rate o ho hrx => ?_, fun I hrx => ?_,
    fun I hrx => ?_, fun raw => ⟨rfl, ?_⟩, by norm_num, ?_⟩
  · obtain ⟨h1, h2⟩ := ADS1115_Read_voltage I high low hh hl hrx
    exact ⟨h1, h2, by rw [h2, scale]⟩
  · obtain ⟨e1, e2⟩ := ADS1115_Config_bus I channel gain data_rate o ho
    have hrx2 : (o.bus.oracle (o.bus.ops.length + 1)).rx = [high, low] := by
      rw [e1, e2]
      exact hrx
    exact (ADS1115_Read_voltage o.bus high low hh hl hrx2).2
  · obtain ⟨h1, h2⟩ := ADS1115_Read_voltage I 0x00 0x00 (by decide) (by decide) hrx
    refine ⟨h1, ?_⟩
    rw [h2]
    norm_num
  · obtain ⟨h1, h2⟩ := ADS1115_Read_voltage I 0x7F 0xFF (by decide) (by decide) hrx
    refine ⟨h1, ?_⟩
    rw [h2]
    norm_num
  · show (raw : ℚ) * 4.096 / 32768 = (raw : ℚ) / 8000
    exact scale _
  · rw [abs_lt]
    constructor <;> norm_num

/-- Witness of C6: after `ADS1115_Config` with gain index 5, on a controller
that stores the bytes `[0x7F, 0xFF]`, the voltage read is `32767 * 4.096 / 32768`. -/
theorem voltage_fixed_full_scale_witness :
    (0x7F < 256 ∧ 0xFF < 256)
    ∧ ∃ o, ADS1115_Config (scriptBus (fun _ => 0) (fun _ => [0x7F, 0xFF])) 1 5 4 = some o
      ∧ (ADS1115_Read o.bus).voltage = ((0x7F * 256 + 0xFF : Nat) : ℚ) * 4.096 / 32768 :=
  ⟨by decide, _, rfl,
    (voltage_fixed_full_scale 0x7F 0xFF (by decide) (by decide)).2.1
      (scriptBus (fun _ => 0) (fun _ => [0x7F, 0xFF])) 1 5 4 _ rfl rfl⟩

/-- C9: whatever the controller answers, `ADS1115_Read` issues exactly two
transfers in this order, a 1-byte send of the pointer byte `0x00` to device 0x49
and a 2-byte receive from device 0x49; a failure status only adds a console
line. The raw value is the first byte of the receive buffer times 256 plus the
second, and the buffer holds what the controller stored over zeros, so a
receive that stores nothing yields raw value 0. -/
theorem ADS1115_Read_transfers (I : XIicPs) :
    (ADS1115_Read I).bus.ops = I.ops ++ [BusOp.send 0x49 [0x00], BusOp.recv 0x49 2]
    ∧ (ADS1115_Read I).bus.console
        = I.console
          ++ (if (I.oracle I.ops.length).status ≠ XST_SUCCESS then [Msg.sendFailed] else [])
          ++ (if (I.oracle (I.ops.length + 1)).status ≠ XST_SUCCESS then [Msg.recvFailed] else [])
          ++ [Msg.readLine (ADS1115_Read I).raw_result (ADS1115_Read I).voltage]
    ∧ (ADS1115_Read I).data
        = [u8 ((I.oracle (I.ops.length + 1)).rx.getD 0 0),
           u8 ((I.oracle (I.ops.length + 1)).rx.getD 1 0)]
    ∧ (ADS1115_Read I).raw_result
        = (ADS1115_Read I).data.getD 0 0 * 256 + (ADS1115_Read I).data.getD 1 0
    ∧ ((I.oracle (I.ops.length + 1)).rx = [] →
        (ADS1115_Read I).data = [0x0, 0x0] ∧ (ADS1115_Read I).raw_result = 0) := by
  have hd := ADS1115_Read_data I
  have hr : (ADS1115_Read I).raw_result = raw_of (ADS1115_Read I).data := rfl
  refine ⟨?_, ?_, hd, ?_, fun hrx => ?_⟩
  · show (xil_printf (I2CReadBytes (I2CByteWrite I ADS1115_ADDRESS ADS1115_POINTER_CONVERSION)
      ADS1115_ADDRESS [0x0, 0x0]).1 _).ops = _
    unfold xil_printf
    simp only [I2CReadBytes_ops, I2CByteWrite_ops, List.append_assoc]
    rfl
  · show (xil_printf (I2CReadBytes (I2CByteWrite I ADS1115_ADDRESS ADS1115_POINTER_CONVERSION)
      ADS1115_ADDRESS [0x0, 0x0]).1 _).console = _
    unfold xil_printf
    simp only [I2CReadBytes_console, I2CByteWrite_console, I2CByteWrite_ops,
      I2CByteWrite_oracle, List.length_append, List.length_singleton]
    rfl
  · rw [hr, hd]
    exact raw_of_bytes _ _ (u8_lt _) (u8_lt _)
  · have h0 : (ADS1115_Read I).data = [0x0, 0x0] := by
      rw [hd, hrx]
      rfl
    refine ⟨h0, ?_⟩
    rw [hr, h0]
    rfl

/-- Witness of C9: on a controller whose transfers all fail and store nothing,
the two transfers are issued and the raw value is 0. -/
theorem ADS1115_Read_transfers_witness :
    (ADS1115_Read (scriptBus (fun _ => 1) (fun _ => []))).bus.ops
      = [BusOp.send 0x49 [0x00], BusOp.recv 0x49 2]
    ∧ (ADS1115_Read (scriptBus (fun _ => 1) (fun _ => []))).raw_result = 0 :=
  ⟨(ADS1115_Read_transfers (scriptBus (fun _ => 1) (fun _ => []))).1,
    ((ADS1115_Read_transfers (scriptBus (fun _ => 1) (fun _ => []))).2.2.2.2 rfl).2⟩

/-! ## Settling delay -/

theorem truncInt_recip_add_100 (d : Nat) (h : 2 ≤ d) : truncInt ((1 : ℚ) / (d : ℚ) + 100) = 100 := by
  have hd : (2 : ℚ) ≤ (d : ℚ) := by exact_mod_cast h
  have hpos : (0 : ℚ) < 1 / (d : ℚ) := by positivity
  have hlt : (1 : ℚ) / (d : ℚ) < 1 := by
    rw [div_lt_one (by linarith)]
    linarith
  unfold truncInt
  rw [if_pos (by linarith), Int.floor_eq_iff]
  constructor <;> push_cast <;> linarith

theorem ADS1115_Config_delay (I : XIicPs) (channel gain data_rate : Nat) :
    (ADS1115_Config I channel gain data_rate).map ConfigOutcome.delay
      = (encode_config channel gain data_rate).map (fun _ => usleepArg data_rate) := by
  unfold ADS1115_Config
  cases encode_config channel gain data_rate <;> rfl

theorem encode_config_some (channel gain data_rate : Nat) (hg : gain ≤ 5) (hd : data_rate ≤ 7) :
    ∃ w, encode_config channel gain data_rate = some w := by
  have h := encode_config_cases (channel &&& 0x7) (channel_low_bits_lt channel)
    gain (by omega) data_rate (by omega)
  rw [← encode_config_low_bits] at h
  exact ⟨_, h.1⟩

/-- The entries 1..7 of the data-rate table. -/
theorem ConfigDr_cases : ∀ d < 8, 1 ≤ d →
    ADS1115_ConfigDr[d]? = some (ADS1115_ConfigDr.getD d 0)
    ∧ 0x20 ≤ ADS1115_ConfigDr.getD d 0 ∧ ADS1115_ConfigDr.getD d 0 ≤ 0xE0 := by
  decide

/-- C8 at the data-rate index 0 (8 samples per second): the divisor
`ADS1115_ConfigDr[0]` is zero, so the delay handed to `usleep` is undefined,
while the config word has been sent. -/
theorem settling_delay_rate0_undefined :
    ADS1115_ConfigDr[0]? = some 0
    ∧ usleepArg 0 = none
    ∧ (ADS1115_Config idleBus 1 1 0).map ConfigOutcome.delay = some none
    ∧ (ADS1115_Config idleBus 1 1 0).map (fun o => o.bus.ops)
        = some [BusOp.send 0x49 [0x01, 0x92, 0x03]] := by
  decide

/-- C10: for every data-rate index in 1..7 the delay `ADS1115_Config` passes to
`usleep` is exactly 100: the divisor is the config-register fragment
`ADS1115_ConfigDr[data_rate]`, between 0x20 and 0xE0, its reciprocal lies
strictly between 0 and 1 and is removed by the truncation. -/
theorem settling_delay_constant (data_rate : Nat) (h1 : 1 ≤ data_rate) (h7 : data_rate ≤ 7) :
    usleepArg data_rate = some 100
    ∧ (∃ d, ADS1115_ConfigDr[data_rate]? = some d ∧ 0x20 ≤ d ∧ d ≤ 0xE0
        ∧ 0 < (1 : ℚ) / (d : ℚ) ∧ (1 : ℚ) / (d : ℚ) < 1
        ∧ truncInt ((1 : ℚ) / (d : ℚ) + 100) = 100)
    ∧ ∀ (I : XIicPs) (channel gain : Nat), gain ≤ 5 →
        (ADS1115_Config I channel gain data_rate).map ConfigOutcome.delay = some (some 100) := by
  obtain ⟨e, lo, hi⟩ := ConfigDr_cases data_rate (by omega) h1
  generalize ADS1115_ConfigDr.getD data_rate 0 = d at e lo hi
  have ht := truncInt_recip_add_100 d (by omega)
  have hu : usleepArg data_rate = some 100 := by
    unfold usleepArg
    rw [e]
    have hne : d ≠ 0 := by omega
    show (if d = 0 then none else some (truncInt ((1 : ℚ) / (d : ℚ) + 100))) = some 100
    rw [if_neg hne, ht]
  have hd : (32 : ℚ) ≤ (d : ℚ) := by exact_mod_cast lo
  refine ⟨hu, ⟨d, e, lo, hi, by positivity, ?_, ht⟩, fun I channel gain hg => ?_⟩
  · rw [div_lt_one (by linarith)]
    linarith
  · obtain ⟨w, hw⟩ := encode_config_some channel gain data_rate hg h7
    rw [ADS1115_Config_delay, hw, hu]
    rfl

/-- Witness of C10 at the data-rate index 4 that `main` passes. -/
theorem settling_delay_constant_witness :
    (1 ≤ 4 ∧ 4 ≤ 7) ∧ usleepArg 4 = some 100
    ∧ (ADS1115_Config idleBus 1 1 4).map ConfigOutcome.delay = some (some 100) :=
  ⟨by decide, (settling_delay_constant 4 (by decide) (by decide)).1,
    (settling_delay_constant 4 (by decide) (by decide)).2.2 idleBus 1 1 (by decide)⟩

end I2cPs
